import Mathlib

/-!
# Verification of the `xor` utility (StevenBlack/xor)

Shallow embedding of `src/main.rs`: a repeating-key XOR tool with a
single-stream mode (`encrypt_reader`) and a recursive in-place tree mode
(`encrypt_path` / `xor_entry` / `xor_file` / `xor_dir` / `xor_symlink`),
plus key resolution (`get_key_bytes`).

Bytes are modelled as `Nat` values; XOR (`^^^`) on byte values below 256
agrees with `u8` XOR, and none of the verified properties depend on the
byte width.
-/

/-- Modelled from the spec: the XOR engine itself lives in the external
`xor_utils` crate (the `Read::xor` method used at `main.rs:88` and
`main.rs:117`), whose source is not part of this repository. The spec's
contract is "produce an output sequence of length N where
`output[i] = input[i] XOR key[i mod K]`", the key repeated/wrapped
cyclically. `xorBytesFrom key i input` transforms the bytes of `input`
that sit at stream positions `i, i+1, ...`. -/
def xorBytesFrom (key : List Nat) : Nat → List Nat → List Nat
  | _, [] => []
  | i, b :: rest => (b ^^^ key[i % key.length]!) :: xorBytesFrom key (i + 1) rest

/-- Modelled from the spec: the full-stream XOR transform, starting at
position 0. -/
def xorBytes (input key : List Nat) : List Nat :=
  xorBytesFrom key 0 input

theorem xorBytesFrom_length (key : List Nat) (i : Nat) (input : List Nat) :
    (xorBytesFrom key i input).length = input.length := by
  induction input generalizing i with
  | nil => rfl
  | cons b rest ih => simp [xorBytesFrom, ih]

theorem xorBytes_length (input key : List Nat) :
    (xorBytes input key).length = input.length :=
  xorBytesFrom_length key 0 input

theorem xorBytesFrom_getElem! (key : List Nat) (i : Nat) (input : List Nat)
    (j : Nat) (h : j < input.length) :
    (xorBytesFrom key i input)[j]! = input[j]! ^^^ key[(i + j) % key.length]! := by
  induction input generalizing i j with
  | nil => simp at h
  | cons b rest ih =>
    cases j with
    | zero =>
      simp only [xorBytesFrom, List.getElem!_cons_zero, Nat.add_zero]
    | succ j =>
      have hj : j < rest.length := by simpa using h
      have h1 := ih (i + 1) j hj
      have h2 : i + 1 + j = i + (j + 1) := by omega
      simp only [xorBytesFrom, List.getElem!_cons_succ]
      rw [h1, h2]

theorem xorBytes_getElem! (input key : List Nat) (j : Nat) (h : j < input.length) :
    (xorBytes input key)[j]! = input[j]! ^^^ key[j % key.length]! := by
  have := xorBytesFrom_getElem! key 0 input j h
  simpa [xorBytes] using this

theorem xorBytesFrom_xorBytesFrom (key : List Nat) (i : Nat) (input : List Nat) :
    xorBytesFrom key i (xorBytesFrom key i input) = input := by
  induction input generalizing i with
  | nil => rfl
  | cons b rest ih =>
    simp [xorBytesFrom, ih, Nat.xor_assoc]

/-- **C1.** The XOR transform preserves length and satisfies
`output[j] = input[j] XOR key[j mod K]` for every index `j < N`; in
particular, for a one-byte key `[b]`, `output[j] = input[j] XOR b`. -/
theorem xorBytes_pointwise (input key : List Nat) (hk : key ≠ []) :
    (xorBytes input key).length = input.length ∧
    (∀ j, j < input.length →
      (xorBytes input key)[j]! = input[j]! ^^^ key[j % key.length]!) ∧
    (∀ b j, j < input.length → (xorBytes input [b])[j]! = input[j]! ^^^ b) := by
  refine ⟨xorBytes_length input key, fun j hj => xorBytes_getElem! input key j hj, ?_⟩
  intro b j hj
  have := xorBytes_getElem! input [b] j hj
  simpa [Nat.mod_one] using this

/-- Witness for C1 at the spec's own scenario: key bytes `0x61, 0x62`,
input `0x00, 0x00, 0x00`, output `0x61, 0x62, 0x61`. -/
theorem xorBytes_pointwise_witness :
    (xorBytes [0, 0, 0] [97, 98]).length = 3 ∧
    (xorBytes [0, 0, 0] [97, 98])[2]! = 97 := by
  have h := xorBytes_pointwise [0, 0, 0] [97, 98] (by decide)
  refine ⟨h.1, ?_⟩
  have h2 := h.2.1 2 (by decide)
  simpa using h2

/-- **C2.** The XOR transform is an involution: applying it twice with the
same non-empty key returns the original byte sequence. -/
theorem xorBytes_involution (input key : List Nat) (hk : key ≠ []) :
    xorBytes (xorBytes input key) key = input :=
  xorBytesFrom_xorBytesFrom key 0 input

/-- Witness for C2 at a concrete input. -/
theorem xorBytes_involution_witness :
    xorBytes (xorBytes [16, 32, 255] [97, 98]) [97, 98] = [16, 32, 255] :=
  xorBytes_involution [16, 32, 255] [97, 98] (by decide)

/-! ## Key resolution (`get_key_bytes`, `main.rs:151-165`) -/

/-- Abstract view of the filesystem as seen by key resolution: whether a
filesystem entry exists at a path (`Path::new(key).exists()`), and the
full byte contents readable at an existing path (`read_to_end`). -/
structure KeyFs where
  pathExists : String → Bool
  fileBytes : String → List Nat

/-- UTF-8 bytes of a string (Rust `String::into_bytes`). -/
def utf8Bytes (s : String) : List Nat :=
  (s.data.flatMap String.utf8EncodeChar).map (fun b => b.toNat)

/-- Embedding of `get_key_bytes`: if a filesystem entry exists at the key
argument's path, the key is that file's full byte contents; otherwise it
is the UTF-8-encoded bytes of the literal string. -/
def get_key_bytes (fs : KeyFs) (key : String) : List Nat :=
  if fs.pathExists key then fs.fileBytes key else utf8Bytes key

/-- **C3.** Key resolution: when a filesystem entry exists at the key
argument's path the resolved key is that file's contents (the file takes
precedence over the literal interpretation); otherwise the resolved key
is the UTF-8 bytes of the literal string. -/
theorem get_key_bytes_resolution (fs : KeyFs) (key : String) :
    (fs.pathExists key = true → get_key_bytes fs key = fs.fileBytes key) ∧
    (fs.pathExists key = false → get_key_bytes fs key = utf8Bytes key) := by
  constructor
  · intro h
    simp [get_key_bytes, h]
  · intro h
    simp [get_key_bytes, h]

/-- A concrete filesystem in which the literal key string `"ab"` collides
with an existing file whose contents are the single byte `0xFF`. -/
def collisionFs : KeyFs where
  pathExists := fun s => s == "ab"
  fileBytes := fun _ => [255]

/-- Witness for C3: under `collisionFs`, the key argument `"ab"` resolves
to the file contents `[0xFF]` (precedence), while `"cd"` resolves to its
UTF-8 bytes `[0x63, 0x64]`. -/
theorem get_key_bytes_resolution_witness :
    get_key_bytes collisionFs "ab" = [255] ∧
    get_key_bytes collisionFs "cd" = [99, 100] := by
  constructor
  · exact (get_key_bytes_resolution collisionFs "ab").1 (by decide)
  · rw [(get_key_bytes_resolution collisionFs "cd").2 (by decide)]
    decide

/-! ## Empty-key handling -/

/-- Modelled from the spec: the XOR engine (external `xor_utils` crate,
absent from this repository's sources) as invoked on a resolved key.
The spec's edge case reads "if K = 0 (empty key), behavior is
undefined/must fail — implementer should treat an empty key as an error
rather than divide-by-zero or silent pass-through", so the run fails
(`none`) on an empty key and otherwise produces the XOR transform. -/
def xorBytesChecked (input key : List Nat) : Option (List Nat) :=
  if key.isEmpty then none else some (xorBytes input key)

/-- **C4.** An empty key is an error: the run fails (`none`) for every
input, producing no output byte sequence at all (`isSome = false`) — in
particular it is not a silent pass-through of the input. -/
theorem xorBytesChecked_empty_key_fails (input : List Nat) :
    xorBytesChecked input [] = none ∧
    (xorBytesChecked input []).isSome = false :=
  ⟨rfl, rfl⟩

/-! ## The recursive tree walker (`main.rs:93-149`)

Walker functions return the entry after the walk together with the lines
printed to standard output (`println` progress messages) and to standard
error (diagnostic output). The truncate-and-overwrite of a file that was
successfully opened for reading (`OpenOptions ... .open(...).unwrap()`
and `write_all(...).unwrap()` in `xor_file`) is modelled as succeeding;
a failure there aborts the whole process and is outside every claim. -/

/-- A filesystem entry as dispatched on by `xor_entry` via
`DirEntry::file_type()`: a regular file (with its byte contents and
whether `File::open` for reading succeeds), a directory (with its child
entries and whether `fs::read_dir` on it succeeds), a symlink, an entry
of any other type (fifo, socket, device node, ...), or an entry whose
`file_type()` call itself returns an error. -/
inductive FsEntry where
  | file (name : String) (contents : List Nat) (openOk : Bool)
  | dir (name : String) (entries : List FsEntry) (listOk : Bool)
  | symlink (name : String)
  | other (name : String)
  | typeUnknown (name : String)

/-- Embedding of `xor_file` (`main.rs:112-127`): print the progress line,
then — only if the file opens for reading — replace its contents with the
XOR transform. An unreadable file is left unchanged with no error
output. -/
def xor_file (key : List Nat) (name : String) (contents : List Nat)
    (openOk : Bool) : FsEntry × List String × List String :=
  if openOk then
    (.file name (xorBytes contents key) openOk, ["Encrypting file " ++ name], [])
  else
    (.file name contents openOk, ["Encrypting file " ++ name], [])

/-- Embedding of `xor_symlink` (`main.rs:129-131`): print the progress
line only; no transformation. -/
def xor_symlink (name : String) : FsEntry × List String × List String :=
  (.symlink name, ["Encrypting symlink " ++ name], [])

mutual

/-- Embedding of `xor_entry` (`main.rs:100-110`): dispatch on the entry
type. Entries that are neither file, directory nor symlink — and entries
whose `file_type()` call fails — fall through all three branches and are
untouched, with no output at all. -/
def xor_entry (key : List Nat) : FsEntry → FsEntry × List String × List String
  | .file name contents openOk => xor_file key name contents openOk
  | .dir name entries listOk => xor_dir key name entries listOk
  | .symlink name => xor_symlink name
  | .other name => (.other name, [], [])
  | .typeUnknown name => (.typeUnknown name, [], [])

/-- Embedding of `xor_dir` (`main.rs:133-149`): print the progress line;
if `fs::read_dir` succeeds, process each child entry in order, otherwise
write a diagnostic to standard error and leave the subtree unchanged. -/
def xor_dir (key : List Nat) (name : String) (entries : List FsEntry)
    (listOk : Bool) : FsEntry × List String × List String :=
  if listOk then
    let r := xor_entries key entries
    (.dir name r.1 listOk, ("Encrypting dir " ++ name) :: r.2.1, r.2.2)
  else
    (.dir name entries listOk, ["Encrypting dir " ++ name],
     ["Failed to read directory: " ++ name])

/-- The `for` loop bodies of `encrypt_path` and `xor_dir`: process a list
of sibling entries in order, concatenating their outputs. -/
def xor_entries (key : List Nat) : List FsEntry → List FsEntry × List String × List String
  | [] => ([], [], [])
  | e :: rest =>
    let r1 := xor_entry key e
    let r2 := xor_entries key rest
    (r1.1 :: r2.1, r1.2.1 ++ r2.2.1, r1.2.2 ++ r2.2.2)

end

/-- Embedding of `encrypt_path` (`main.rs:93-98`):
`fs::read_dir(p).unwrap()` panics (modelled as `none`) when the starting
path cannot be listed as a directory; otherwise every entry is processed
in turn. Iterator items are modelled as all `Ok` (the per-item
`item.unwrap()` at `main.rs:95` never fires in this model). -/
def encrypt_path (key : List Nat) (root : FsEntry) :
    Option (FsEntry × List String × List String) :=
  match root with
  | .dir name entries listOk =>
    if listOk then
      let r := xor_entries key entries
      some (.dir name r.1 listOk, r.2.1, r.2.2)
    else none
  | _ => none

theorem xor_entries_append (key : List Nat) (l1 l2 : List FsEntry) :
    xor_entries key (l1 ++ l2) =
      ((xor_entries key l1).1 ++ (xor_entries key l2).1,
       (xor_entries key l1).2.1 ++ (xor_entries key l2).2.1,
       (xor_entries key l1).2.2 ++ (xor_entries key l2).2.2) := by
  induction l1 with
  | nil => simp [xor_entries]
  | cons e rest ih => simp [xor_entries, ih]

/-- **C5.** A subdirectory whose entries cannot be listed is reported on
standard error (`Failed to read directory: ...`) and left unchanged, and
the walk continues: the siblings before and after it are processed
exactly as they otherwise would be, so the failure never aborts the
overall walk. -/
theorem xor_dir_failure_nonfatal (key : List Nat) (n : String)
    (es : List FsEntry) (pre post : List FsEntry) :
    xor_entries key (pre ++ FsEntry.dir n es false :: post) =
      ((xor_entries key pre).1 ++ FsEntry.dir n es false :: (xor_entries key post).1,
       (xor_entries key pre).2.1 ++
         ("Encrypting dir " ++ n) :: (xor_entries key post).2.1,
       (xor_entries key pre).2.2 ++
         ("Failed to read directory: " ++ n) :: (xor_entries key post).2.2) := by
  rw [xor_entries_append]
  simp [xor_entries, xor_entry, xor_dir]

/-- **C6.** A regular file that cannot be opened for reading is skipped:
its contents are unchanged, nothing is written to standard error (only
the routine `Encrypting file` progress line appears, with no error), and
the walk continues with the remaining entries. -/
theorem xor_file_unreadable_skipped (key : List Nat) (n : String)
    (c : List Nat) (pre post : List FsEntry) :
    xor_entries key (pre ++ FsEntry.file n c false :: post) =
      ((xor_entries key pre).1 ++ FsEntry.file n c false :: (xor_entries key post).1,
       (xor_entries key pre).2.1 ++
         ("Encrypting file " ++ n) :: (xor_entries key post).2.1,
       (xor_entries key pre).2.2 ++ (xor_entries key post).2.2) := by
  rw [xor_entries_append]
  simp [xor_entries, xor_entry, xor_file]

/-- Counterexample to C7 as stated: an entry of a type that is neither
file, directory nor symlink (e.g. a socket) is left untouched but the
walker emits **no** log line for it at all — stdout and stderr both stay
empty, contradicting "it emits a notice (log line) for the entry". -/
theorem xor_entry_other_emits_nothing :
    (xor_entry [255] (FsEntry.other "sock")).1 = FsEntry.other "sock" ∧
    (xor_entry [255] (FsEntry.other "sock")).2.1 = [] ∧
    (xor_entry [255] (FsEntry.other "sock")).2.2 = [] := by
  refine ⟨?_, ?_, ?_⟩ <;> simp [xor_entry]

/-- **C7 (amended).** An entry that is neither a regular file nor a
directory is never content-transformed; a symlink entry additionally gets
an `Encrypting symlink` log line, while an entry of any other type — or
one whose type cannot be determined — produces no output at all. -/
theorem xor_entry_non_file_dir (key : List Nat) (n : String) :
    xor_entry key (FsEntry.symlink n) =
      (FsEntry.symlink n, ["Encrypting symlink " ++ n], []) ∧
    xor_entry key (FsEntry.other n) = (FsEntry.other n, [], []) ∧
    xor_entry key (FsEntry.typeUnknown n) = (FsEntry.typeUnknown n, [], []) := by
  refine ⟨?_, ?_, ?_⟩ <;> simp [xor_entry, xor_symlink]

/-! ## Single-stream mode (`encrypt_reader`, `main.rs:87-91`) -/

/-- An output sink (`Box<Write>`): the bytes written so far and whether
the sink has been flushed since the last write. -/
structure Sink where
  written : List Nat
  flushed : Bool

/-- `write_all`: append every byte of `data` to the sink. -/
def write_all (s : Sink) (data : List Nat) : Sink :=
  { written := s.written ++ data, flushed := false }

/-- `flush`: mark the sink flushed. -/
def flush (s : Sink) : Sink :=
  { s with flushed := true }

/-- Embedding of `encrypt_reader`: the `input` list is the full byte
stream of the source, consumed to completion by `Read::xor`; the encoded
bytes are written with `write_all` and the sink is then flushed. -/
def encrypt_reader (input key : List Nat) (output : Sink) : Sink :=
  let encoded_bytes := xorBytes input key
  flush (write_all output encoded_bytes)

/-- **C8.** Single-stream mode writes the entire XOR-transformed input —
every byte, `input.length` of them — to the sink and then flushes it. -/
theorem encrypt_reader_writes_all_then_flushes (input key : List Nat)
    (output : Sink) :
    (encrypt_reader input key output).written =
      output.written ++ xorBytes input key ∧
    (encrypt_reader input key output).flushed = true ∧
    (encrypt_reader input key output).written.length =
      output.written.length + input.length := by
  refine ⟨rfl, rfl, ?_⟩
  simp [encrypt_reader, write_all, flush, xorBytes_length]

/-! ## Double-run round trip -/

theorem xorBytes_xorBytes (input key : List Nat) :
    xorBytes (xorBytes input key) key = input :=
  xorBytesFrom_xorBytesFrom key 0 input

mutual

theorem xor_entry_twice (key : List Nat) :
    (e : FsEntry) → (xor_entry key (xor_entry key e).1).1 = e
  | .file n c true => by
    simp [xor_entry, xor_file, xorBytes_xorBytes]
  | .file n c false => by
    simp [xor_entry, xor_file]
  | .dir n es true => by
    have ih := xor_entries_twice key es
    simp [xor_entry, xor_dir, ih]
  | .dir n es false => by
    simp [xor_entry, xor_dir]
  | .symlink n => by
    simp [xor_entry, xor_symlink]
  | .other n => by
    simp [xor_entry]
  | .typeUnknown n => by
    simp [xor_entry]

theorem xor_entries_twice (key : List Nat) :
    (es : List FsEntry) → (xor_entries key (xor_entries key es).1).1 = es
  | [] => by
    simp [xor_entries]
  | e :: rest => by
    have ih1 := xor_entry_twice key e
    have ih2 := xor_entries_twice key rest
    simp [xor_entries, ih1, ih2]

end

/-- **C9.** Running recursive mode twice over the same tree with the same
non-empty key restores the tree: if the first run succeeds with output
tree `out.1`, a second run on `out.1` succeeds and returns the original
tree — in particular every regular file's contents byte-for-byte. -/
theorem encrypt_path_double_run (key : List Nat) (root : FsEntry)
    (out : FsEntry × List String × List String) (hk : key ≠ [])
    (h : encrypt_path key root = some out) :
    ∃ out2, encrypt_path key out.1 = some out2 ∧ out2.1 = root := by
  cases root with
  | file n c ok => simp [encrypt_path] at h
  | symlink n => simp [encrypt_path] at h
  | other n => simp [encrypt_path] at h
  | typeUnknown n => simp [encrypt_path] at h
  | dir n es listOk =>
    cases listOk with
    | false => simp [encrypt_path] at h
    | true =>
      simp only [encrypt_path, if_pos, Option.some_inj] at h
      subst h
      refine ⟨_, rfl, ?_⟩
      simp [encrypt_path, xor_entries_twice]

/-- Witness for C9 at the spec's own scenario: directory `d` containing
file `f` with contents `0x10, 0x20` and key byte `0xFF`; after one run
`f` holds `0xEF, 0xDF`, and the second run restores the original tree. -/
theorem encrypt_path_double_run_witness :
    ∃ out2,
      encrypt_path [255]
          (FsEntry.dir "d" [FsEntry.file "f" [239, 223] true] true) = some out2 ∧
      out2.1 = FsEntry.dir "d" [FsEntry.file "f" [16, 32] true] true :=
  encrypt_path_double_run [255]
    (FsEntry.dir "d" [FsEntry.file "f" [16, 32] true] true)
    (FsEntry.dir "d" [FsEntry.file "f" [239, 223] true] true,
      ["Encrypting file f"], [])
    (by decide)
    (by simp [encrypt_path, xor_entries, xor_entry, xor_file, xorBytes, xorBytesFrom])

/-- **C10.** A failure to list the starting directory itself aborts the
whole run (`fs::read_dir(p).unwrap()` panics, modelled as `none`), while
the same failure on a subdirectory met during the walk is logged to
standard error and the run still completes (`some`). -/
theorem encrypt_path_root_failure_fatal (key : List Nat) (n m : String)
    (es : List FsEntry) :
    encrypt_path key (FsEntry.dir n es false) = none ∧
    (∀ c : List Nat, ∀ ok : Bool,
      encrypt_path key (FsEntry.file n c ok) = none) ∧
    encrypt_path key (FsEntry.dir n [FsEntry.dir m es false] true) =
      some (FsEntry.dir n [FsEntry.dir m es false] true,
        ["Encrypting dir " ++ m], ["Failed to read directory: " ++ m]) := by
  refine ⟨by simp [encrypt_path], fun c ok => by simp [encrypt_path], ?_⟩
  simp [encrypt_path, xor_entries, xor_entry, xor_dir]
